import Mathlib

/-!
Shallow embedding of the data model, data generators and alert evaluators of
the IIoT / supply-chain dashboard (`src/app.py`), together with proofs of the
behavioural properties stated for it.

Modelling conventions:
* machine values (Python/numpy floats) are embedded as rationals `ℚ`;
* `datetime` timestamps are embedded as minutes since an arbitrary epoch
  (`ℤ`), so `timestamp.hour = (t / 60) % 24` and
  `timestamp.weekday() = (t / 1440) % 7`;
* Python `round(x, n)` (round half to even) is embedded as `round1` / `round0`;
* `np.clip(x, lo, hi) = min(hi, max(x, lo))` is embedded as `clip`;
* pseudo-random draws (`random.random()`, `np.random.uniform`,
  `np.random.normal`, `np.random.randint`) are embedded as explicit
  parameters, constrained where needed to the support of the sampled
  distribution;
* a pandas table is a `List` of row structures, one structure per domain,
  with the columns the generator emits;
* `df.groupby(key).last().reset_index()` is embedded as `latestOf`: one row
  per distinct key, namely the last row of the table carrying that key
  (the relevant columns are never null, so pandas `last` is the last row).
-/

namespace AicIot

/-- Hour of day for a timestamp in minutes since the epoch. -/
def hourOf (t : ℤ) : ℤ := (t / 60) % 24

/-- Day of week (0 = Monday) for a timestamp in minutes since the epoch. -/
def weekdayOf (t : ℤ) : ℤ := (t / 1440) % 7

/-- `np.clip(x, lo, hi)`. -/
def clip (x lo hi : ℚ) : ℚ := min hi (max x lo)

/-- Round half to even to an integer, the rounding used by Python `round`. -/
def rhe (q : ℚ) : ℤ :=
  if Int.fract q < 1/2 then ⌊q⌋
  else if 1/2 < Int.fract q then ⌊q⌋ + 1
  else if ⌊q⌋ % 2 = 0 then ⌊q⌋ else ⌊q⌋ + 1

/-- Python `round(x, 1)`. -/
def round1 (q : ℚ) : ℚ := (rhe (10 * q) : ℚ) / 10

/-- Python `round(x, 0)`. -/
def round0 (q : ℚ) : ℚ := (rhe q : ℚ)

theorem rhe_eq_floor_or_succ (q : ℚ) : rhe q = ⌊q⌋ ∨ rhe q = ⌊q⌋ + 1 := by
  unfold rhe
  split
  · exact Or.inl rfl
  · split
    · exact Or.inr rfl
    · split
      · exact Or.inl rfl
      · exact Or.inr rfl

theorem rhe_le_of_le {q : ℚ} {B : ℤ} (h : q ≤ (B : ℚ)) : rhe q ≤ B := by
  have hfl : ⌊q⌋ ≤ B := by
    rw [Int.floor_le_iff]
    push_cast
    linarith
  have hsucc : 1/2 ≤ Int.fract q → ⌊q⌋ + 1 ≤ B := by
    intro hge
    have hfr : Int.fract q = q - ⌊q⌋ := rfl
    have hflt : (⌊q⌋ : ℚ) < q := by linarith
    have hQB : (⌊q⌋ : ℚ) < (B : ℚ) := lt_of_lt_of_le hflt h
    have hZB : ⌊q⌋ < B := by exact_mod_cast hQB
    omega
  unfold rhe
  split
  · exact hfl
  · rename_i h1
    push_neg at h1
    split
    · exact hsucc h1
    · split
      · exact hfl
      · exact hsucc h1

theorem le_rhe_of_le {q : ℚ} {A : ℤ} (h : (A : ℚ) ≤ q) : A ≤ rhe q := by
  have hA : A ≤ ⌊q⌋ := Int.le_floor.mpr h
  rcases rhe_eq_floor_or_succ q with he | he <;> omega

theorem abs_rhe_sub_le (q : ℚ) : |(rhe q : ℚ) - q| ≤ 1/2 := by
  have hfr : Int.fract q = q - ⌊q⌋ := rfl
  have h0 : (0:ℚ) ≤ Int.fract q := Int.fract_nonneg q
  have h1 : Int.fract q < 1 := Int.fract_lt_one q
  unfold rhe
  split
  · rw [abs_le]
    constructor <;> push_cast <;> linarith
  · rename_i hge
    push_neg at hge
    split
    · rw [abs_le]
      constructor <;> push_cast <;> linarith
    · rename_i hle
      push_neg at hle
      split <;> (rw [abs_le]; constructor <;> push_cast <;> linarith)

theorem round1_le_of_le {q : ℚ} {B : ℤ} (h : q ≤ (B : ℚ)) : round1 q ≤ (B : ℚ) := by
  unfold round1
  rw [div_le_iff₀ (by norm_num : (0:ℚ) < 10)]
  have h10 : 10 * q ≤ ((10 * B : ℤ) : ℚ) := by push_cast; linarith
  have := rhe_le_of_le h10
  calc ((rhe (10 * q) : ℤ) : ℚ) ≤ ((10 * B : ℤ) : ℚ) := by exact_mod_cast this
  _ = (B : ℚ) * 10 := by push_cast; ring

theorem le_round1_of_le {q : ℚ} {A : ℤ} (h : (A : ℚ) ≤ q) : (A : ℚ) ≤ round1 q := by
  unfold round1
  rw [le_div_iff₀ (by norm_num : (0:ℚ) < 10)]
  have h10 : ((10 * A : ℤ) : ℚ) ≤ 10 * q := by push_cast; linarith
  have := le_rhe_of_le h10
  calc (A : ℚ) * 10 = ((10 * A : ℤ) : ℚ) := by push_cast; ring
  _ ≤ ((rhe (10 * q) : ℤ) : ℚ) := by exact_mod_cast this

theorem abs_round1_sub_le (q : ℚ) : |round1 q - q| ≤ 1/20 := by
  have h := abs_rhe_sub_le (10 * q)
  unfold round1
  rw [abs_le] at h ⊢
  constructor
  · linarith
  · linarith

theorem round0_le_of_le {q : ℚ} {B : ℤ} (h : q ≤ (B : ℚ)) : round0 q ≤ (B : ℚ) := by
  unfold round0
  exact_mod_cast rhe_le_of_le h

theorem clip_le {x lo hi : ℚ} : clip x lo hi ≤ hi := min_le_left _ _

theorem le_clip {x lo hi : ℚ} (h : lo ≤ hi) : lo ≤ clip x lo hi :=
  le_min h (le_max_right _ _)

/-! ### Per-entity latest-row aggregation (`df.groupby(key).last()`) -/

/-- The distinct keys of a table, in order of first occurrence. -/
def keysOf {α : Type} (key : α → String) (df : List α) : List String :=
  (df.map key).dedup

/-- The last row of `df` whose key is `k` (`none` when `k` does not occur). -/
def lastOf {α : Type} (key : α → String) (df : List α) (k : String) : Option α :=
  (df.filter (fun r => decide (key r = k))).getLast?

/-- `df.groupby(key).last().reset_index()`: one row per distinct key. -/
def latestOf {α : Type} (key : α → String) (df : List α) : List α :=
  (keysOf key df).filterMap (lastOf key df)

theorem mem_keysOf {α : Type} {key : α → String} {df : List α} {k : String} :
    k ∈ keysOf key df ↔ ∃ r ∈ df, key r = k := by
  unfold keysOf
  rw [List.mem_dedup, List.mem_map]

theorem lastOf_key {α : Type} {key : α → String} {df : List α} {k : String} {r : α}
    (h : lastOf key df k = some r) : key r = k := by
  unfold lastOf at h
  have hmem : r ∈ df.filter (fun r => decide (key r = k)) :=
    List.mem_of_mem_getLast? h
  have := (List.mem_filter.mp hmem).2
  simpa using this

theorem lastOf_mem {α : Type} {key : α → String} {df : List α} {k : String} {r : α}
    (h : lastOf key df k = some r) : r ∈ df := by
  unfold lastOf at h
  exact (List.mem_filter.mp (List.mem_of_mem_getLast? h)).1

theorem lastOf_isSome_of_mem {α : Type} {key : α → String} {df : List α} {k : String}
    (h : k ∈ keysOf key df) : ∃ r, lastOf key df k = some r := by
  obtain ⟨r, hr, hk⟩ := mem_keysOf.mp h
  have hne : df.filter (fun r => decide (key r = k)) ≠ [] := by
    intro hnil
    have : r ∈ df.filter (fun r => decide (key r = k)) :=
      List.mem_filter.mpr ⟨hr, by simpa using hk⟩
    rw [hnil] at this
    exact absurd this (List.not_mem_nil r)
  have := List.getLast?_isSome.mpr hne
  unfold lastOf
  exact Option.isSome_iff_exists.mp this

theorem mem_latestOf {α : Type} {key : α → String} {df : List α} {r : α} :
    r ∈ latestOf key df ↔ lastOf key df (key r) = some r := by
  unfold latestOf
  rw [List.mem_filterMap]
  constructor
  · rintro ⟨k, _, hlast⟩
    have := lastOf_key hlast
    rw [← this] at hlast
    exact hlast
  · intro hlast
    refine ⟨key r, ?_, hlast⟩
    exact mem_keysOf.mpr ⟨r, lastOf_mem hlast, rfl⟩

theorem map_key_filterMap_lastOf {α : Type} (key : α → String) (df : List α) :
    ∀ l : List String,
      (l.filterMap (lastOf key df)).map key
        = l.filter (fun k => (lastOf key df k).isSome)
  | [] => rfl
  | k :: l => by
    rcases hk : lastOf key df k with _ | r
    · simp only [List.filterMap_cons, hk, List.filter_cons, Option.isSome_none,
        Bool.false_eq_true, if_false]
      exact map_key_filterMap_lastOf key df l
    · simp only [List.filterMap_cons, hk, List.filter_cons, List.map_cons,
        Option.isSome_some, if_true]
      rw [lastOf_key hk]
      rw [map_key_filterMap_lastOf key df l]

theorem map_key_latestOf {α : Type} (key : α → String) (df : List α) :
    (latestOf key df).map key = keysOf key df := by
  unfold latestOf
  rw [map_key_filterMap_lastOf]
  rw [List.filter_eq_self]
  intro k hk
  obtain ⟨r, hr⟩ := lastOf_isSome_of_mem hk
  rw [hr]
  rfl

theorem mem_flatMap_latestOf_iff {α β : Type} (key : α → String) (df : List α)
    (f : α → List β) (b : β) :
    b ∈ (latestOf key df).flatMap f ↔
      ∃ r, lastOf key df (key r) = some r ∧ b ∈ f r := by
  rw [List.mem_flatMap]
  constructor
  · rintro ⟨r, hr, hb⟩
    exact ⟨r, mem_latestOf.mp hr, hb⟩
  · rintro ⟨r, hr, hb⟩
    exact ⟨r, mem_latestOf.mpr hr, hb⟩

/-! ### Predictive maintenance (`generate_predictive_maintenance_data`,
`check_predictive_maintenance_alerts`) -/

/-- A row of the predictive-maintenance table. -/
structure PMRow where
  timestamp : ℤ
  machine_id : String
  vibration_rms : ℚ
  temperature_C : ℚ
  runtime_hours : ℚ
  failure_risk_score : ℚ
  health_status : String
  deriving DecidableEq, Repr

/-- An alert emitted by `check_predictive_maintenance_alerts`. -/
structure PMAlert where
  type : String
  machine : String
  value : ℚ
  threshold : ℚ
  severity : String
  deriving DecidableEq, Repr

/-- The alerts the loop body of `check_predictive_maintenance_alerts`
appends for one latest row. -/
def pmRowAlerts (row : PMRow) : List PMAlert :=
  (if 12 < row.vibration_rms then
    [⟨"High Vibration", row.machine_id, row.vibration_rms, 12, "Warning"⟩]
  else []) ++
  (if 80 < row.temperature_C then
    [⟨"High Temperature", row.machine_id, row.temperature_C, 80, "Critical"⟩]
  else []) ++
  (if 70 < row.failure_risk_score then
    [⟨"High Failure Risk", row.machine_id, row.failure_risk_score, 70, "Critical"⟩]
  else [])

/-- `check_predictive_maintenance_alerts` (src/app.py lines 621-654). -/
def check_predictive_maintenance_alerts (df : List PMRow) : List PMAlert :=
  (latestOf (fun r => r.machine_id) df).flatMap pmRowAlerts

theorem pmRowAlerts_vib {r : PMRow} {a : PMAlert} :
    (a ∈ pmRowAlerts r ∧ a.type = "High Vibration") ↔
      (12 < r.vibration_rms ∧
        a = ⟨"High Vibration", r.machine_id, r.vibration_rms, 12, "Warning"⟩) := by
  constructor
  · rintro ⟨hmem, hty⟩
    unfold pmRowAlerts at hmem
    rcases List.mem_append.mp hmem with h' | h'
    · rcases List.mem_append.mp h' with h'' | h'' <;> (split at h'' <;> simp_all)
    · split at h' <;> simp_all
  · rintro ⟨hc, rfl⟩
    refine ⟨?_, rfl⟩
    unfold pmRowAlerts
    simp [hc]

theorem pmRowAlerts_temp {r : PMRow} {a : PMAlert} :
    (a ∈ pmRowAlerts r ∧ a.type = "High Temperature") ↔
      (80 < r.temperature_C ∧
        a = ⟨"High Temperature", r.machine_id, r.temperature_C, 80, "Critical"⟩) := by
  constructor
  · rintro ⟨hmem, hty⟩
    unfold pmRowAlerts at hmem
    rcases List.mem_append.mp hmem with h' | h'
    · rcases List.mem_append.mp h' with h'' | h'' <;> (split at h'' <;> simp_all)
    · split at h' <;> simp_all
  · rintro ⟨hc, rfl⟩
    refine ⟨?_, rfl⟩
    unfold pmRowAlerts
    simp [hc]

theorem pmRowAlerts_risk {r : PMRow} {a : PMAlert} :
    (a ∈ pmRowAlerts r ∧ a.type = "High Failure Risk") ↔
      (70 < r.failure_risk_score ∧
        a = ⟨"High Failure Risk", r.machine_id, r.failure_risk_score, 70, "Critical"⟩) := by
  constructor
  · rintro ⟨hmem, hty⟩
    unfold pmRowAlerts at hmem
    rcases List.mem_append.mp hmem with h' | h'
    · rcases List.mem_append.mp h' with h'' | h'' <;> (split at h'' <;> simp_all)
    · split at h' <;> simp_all
  · rintro ⟨hc, rfl⟩
    refine ⟨?_, rfl⟩
    unfold pmRowAlerts
    simp [hc]

theorem pm_alert_present_iff (df : List PMRow) (m ty : String)
    (mk : PMRow → PMAlert) (cond : PMRow → Prop)
    (hrow : ∀ r a, (a ∈ pmRowAlerts r ∧ a.type = ty) ↔ (cond r ∧ a = mk r))
    (hmachine : ∀ r, (mk r).machine = r.machine_id) :
    (∃ a ∈ check_predictive_maintenance_alerts df, a.type = ty ∧ a.machine = m) ↔
      (∃ r, lastOf (fun r => r.machine_id) df m = some r ∧ cond r) := by
  unfold check_predictive_maintenance_alerts
  constructor
  · rintro ⟨a, ha, hty, hm⟩
    obtain ⟨r, hlast, hmem⟩ := (mem_flatMap_latestOf_iff _ df pmRowAlerts a).mp ha
    obtain ⟨hc, hak⟩ := (hrow r a).mp ⟨hmem, hty⟩
    have hkey : r.machine_id = m := by
      rw [hak] at hm
      rw [hmachine r] at hm
      exact hm
    rw [hkey] at hlast
    exact ⟨r, hlast, hc⟩
  · rintro ⟨r, hlast, hc⟩
    have hkey : r.machine_id = m := lastOf_key hlast
    have hmem : mk r ∈ pmRowAlerts r ∧ (mk r).type = ty := (hrow r (mk r)).mpr ⟨hc, rfl⟩
    refine ⟨mk r, ?_, hmem.2, ?_⟩
    · apply (mem_flatMap_latestOf_iff _ df pmRowAlerts (mk r)).mpr
      refine ⟨r, ?_, hmem.1⟩
      rw [hkey]
      exact hlast
    · rw [hmachine r, hkey]

theorem pmRowAlerts_severity {r : PMRow} {a : PMAlert} (h : a ∈ pmRowAlerts r) :
    (a.type = "High Vibration" → a.severity = "Warning") ∧
    (a.type = "High Temperature" → a.severity = "Critical") ∧
    (a.type = "High Failure Risk" → a.severity = "Critical") := by
  unfold pmRowAlerts at h
  rcases List.mem_append.mp h with h' | h'
  · rcases List.mem_append.mp h' with h'' | h''
    · split at h'' <;> simp_all
    · split at h'' <;> simp_all
  · split at h' <;> simp_all

/-- C1: For a non-empty predictive-maintenance table and any machine, a
"High Vibration" alert for that machine is emitted iff the machine's latest
row has `vibration_rms > 12`, a "High Temperature" alert iff its latest
`temperature_C > 80`, and a "High Failure Risk" alert iff its latest
`failure_risk_score > 70`; each alert's severity comes from the static
per-type lookup (Warning for High Vibration, Critical for the other two),
independent of how far the value exceeds the threshold. -/
theorem C1_pm_alerts (df : List PMRow) (hdf : df ≠ []) (m : String) :
    ((∃ a ∈ check_predictive_maintenance_alerts df,
        a.type = "High Vibration" ∧ a.machine = m) ↔
      (∃ r, lastOf (fun r => r.machine_id) df m = some r ∧ 12 < r.vibration_rms)) ∧
    ((∃ a ∈ check_predictive_maintenance_alerts df,
        a.type = "High Temperature" ∧ a.machine = m) ↔
      (∃ r, lastOf (fun r => r.machine_id) df m = some r ∧ 80 < r.temperature_C)) ∧
    ((∃ a ∈ check_predictive_maintenance_alerts df,
        a.type = "High Failure Risk" ∧ a.machine = m) ↔
      (∃ r, lastOf (fun r => r.machine_id) df m = some r ∧ 70 < r.failure_risk_score)) ∧
    (∀ a ∈ check_predictive_maintenance_alerts df,
      (a.type = "High Vibration" → a.severity = "Warning") ∧
      (a.type = "High Temperature" → a.severity = "Critical") ∧
      (a.type = "High Failure Risk" → a.severity = "Critical")) := by
  refine ⟨?_, ?_, ?_, ?_⟩
  · exact pm_alert_present_iff df m "High Vibration" _
      (fun r => 12 < r.vibration_rms) (fun r a => pmRowAlerts_vib) (fun r => rfl)
  · exact pm_alert_present_iff df m "High Temperature" _
      (fun r => 80 < r.temperature_C) (fun r a => pmRowAlerts_temp) (fun r => rfl)
  · exact pm_alert_present_iff df m "High Failure Risk" _
      (fun r => 70 < r.failure_risk_score) (fun r a => pmRowAlerts_risk) (fun r => rfl)
  · intro a ha
    unfold check_predictive_maintenance_alerts at ha
    obtain ⟨r, _, hmem⟩ :=
      (mem_flatMap_latestOf_iff (fun r => r.machine_id) df pmRowAlerts a).mp ha
    exact pmRowAlerts_severity hmem

/-- A sample latest reading used to instantiate `C1_pm_alerts`. -/
def pmRow0 : PMRow :=
  ⟨0, "Machine_04", 13, 85, 100, 75, "critical"⟩

/-- Witness for C1 at a concrete one-row table. -/
theorem C1_pm_alerts_witness :
    ([pmRow0] ≠ ([] : List PMRow)) ∧
    (((∃ a ∈ check_predictive_maintenance_alerts [pmRow0],
        a.type = "High Vibration" ∧ a.machine = "Machine_04") ↔
      (∃ r, lastOf (fun r => r.machine_id) [pmRow0] "Machine_04" = some r ∧
        12 < r.vibration_rms)) ∧
    ((∃ a ∈ check_predictive_maintenance_alerts [pmRow0],
        a.type = "High Temperature" ∧ a.machine = "Machine_04") ↔
      (∃ r, lastOf (fun r => r.machine_id) [pmRow0] "Machine_04" = some r ∧
        80 < r.temperature_C)) ∧
    ((∃ a ∈ check_predictive_maintenance_alerts [pmRow0],
        a.type = "High Failure Risk" ∧ a.machine = "Machine_04") ↔
      (∃ r, lastOf (fun r => r.machine_id) [pmRow0] "Machine_04" = some r ∧
        70 < r.failure_risk_score)) ∧
    (∀ a ∈ check_predictive_maintenance_alerts [pmRow0],
      (a.type = "High Vibration" → a.severity = "Warning") ∧
      (a.type = "High Temperature" → a.severity = "Critical") ∧
      (a.type = "High Failure Risk" → a.severity = "Critical"))) :=
  ⟨by simp, C1_pm_alerts [pmRow0] (by simp) "Machine_04"⟩

/-- C5: the per-entity latest-row aggregation (`groupby` on the entity id
followed by `last`) yields exactly one row for each machine identifier
occurring in the table and no row for identifiers that do not occur. -/
theorem C5_latest_unique (df : List PMRow) (m : String) :
    ((latestOf (fun r => r.machine_id) df).map (fun r => r.machine_id)).count m
      = if m ∈ df.map (fun r => r.machine_id) then 1 else 0 := by
  rw [map_key_latestOf]
  unfold keysOf
  by_cases hm : m ∈ df.map (fun r => r.machine_id)
  · rw [if_pos hm]
    exact List.count_eq_one_of_mem (List.nodup_dedup _) (List.mem_dedup.mpr hm)
  · rw [if_neg hm]
    exact List.count_eq_zero.mpr (fun hc => hm (List.mem_dedup.mp hc))

/-! ### Inventory (`generate_inventory_data`, `check_inventory_alerts`) -/

/-- A row of the inventory table. -/
structure InvRow where
  timestamp : ℤ
  sku_id : String
  warehouse_id : String
  stock_level : ℚ
  reorder_point : ℤ
  restock_eta : Option ℤ
  deriving DecidableEq, Repr

/-- An alert emitted by `check_inventory_alerts`. -/
structure InvAlert where
  type : String
  sku : String
  warehouse : String
  stock_level : ℚ
  reorder_point : ℤ
  severity : String
  deriving DecidableEq, Repr

/-- `check_inventory_alerts` (src/app.py lines 712-729): the latest row per
SKU is selected with `low_stock = latest[latest.stock_level <= latest.reorder_point]`
and each selected row becomes a Low Stock / Warning alert. -/
def check_inventory_alerts (df : List InvRow) : List InvAlert :=
  (((latestOf (fun r => r.sku_id) df)).filter
      (fun r => decide (r.stock_level ≤ (r.reorder_point : ℚ)))).map
    (fun r => ⟨"Low Stock", r.sku_id, r.warehouse_id, r.stock_level,
      r.reorder_point, "Warning"⟩)

/-- A SKU whose latest stock level exactly equals its reorder point. -/
def invRowEq : InvRow :=
  ⟨0, "SKU_2000", "WH_001", 100, 100, none⟩

/-- C3 counterexample: with the latest `stock_level` equal to the reorder
point (not strictly below it), `check_inventory_alerts` does emit a
Low Stock alert, contradicting the claim that no alert fires at equality. -/
theorem C3_counterexample :
    invRowEq.stock_level = (invRowEq.reorder_point : ℚ) ∧
    check_inventory_alerts [invRowEq] =
      [⟨"Low Stock", "SKU_2000", "WH_001", 100, 100, "Warning"⟩] := by
  constructor
  · norm_num [invRowEq]
  · rfl

/-- C3 (amended): `check_inventory_alerts` emits a Low Stock alert for a SKU
iff the SKU's latest `stock_level` is less than or equal to its
`reorder_point`; in particular an alert does fire at equality. -/
theorem C3_low_stock_iff (df : List InvRow) (s : String) :
    (∃ a ∈ check_inventory_alerts df, a.sku = s) ↔
      (∃ r, lastOf (fun r => r.sku_id) df s = some r ∧
        r.stock_level ≤ (r.reorder_point : ℚ)) := by
  unfold check_inventory_alerts
  constructor
  · rintro ⟨a, ha, hsku⟩
    obtain ⟨r, hr, hmk⟩ := List.mem_map.mp ha
    obtain ⟨hlat, hle⟩ := List.mem_filter.mp hr
    have hlast := mem_latestOf.mp hlat
    have hkey : r.sku_id = s := by
      rw [← hmk] at hsku
      exact hsku
    rw [hkey] at hlast
    refine ⟨r, hlast, ?_⟩
    simpa using hle
  · rintro ⟨r, hlast, hle⟩
    have hkey : r.sku_id = s := lastOf_key hlast
    refine ⟨⟨"Low Stock", r.sku_id, r.warehouse_id, r.stock_level,
      r.reorder_point, "Warning"⟩, ?_, hkey⟩
    apply List.mem_map.mpr
    refine ⟨r, ?_, rfl⟩
    apply List.mem_filter.mpr
    refine ⟨?_, by simpa using hle⟩
    apply mem_latestOf.mpr
    rw [hkey]
    exact hlast

/-! ### Cold chain (`generate_cold_chain_data`, `check_cold_chain_alerts`) -/

/-- A row of the cold-chain table. Note that the generated table carries no
tolerance column: the per-shipment `tolerance` entries of
`shipment_configs` only shape the simulated temperature noise and are not
part of the emitted rows. -/
structure CCRow where
  timestamp : ℤ
  shipment_id : String
  truck_id : String
  cargo_type : String
  cold_storage_temp : ℚ
  humidity : ℚ
  door_status : String
  target_temp : ℚ
  deriving DecidableEq, Repr

/-- An alert emitted by `check_cold_chain_alerts`. -/
structure CCAlert where
  type : String
  shipment : String
  current : ℚ
  target : ℚ
  severity : String
  deriving DecidableEq, Repr

/-- `check_cold_chain_alerts` (src/app.py lines 691-710): flags the latest
row of a shipment when `abs(cold_storage_temp - target_temp) > 5`, the
constant 5 being the same for every shipment. -/
def check_cold_chain_alerts (df : List CCRow) : List CCAlert :=
  (latestOf (fun r => r.shipment_id) df).flatMap
    (fun r =>
      if 5 < |r.cold_storage_temp - r.target_temp| then
        [⟨"Temperature Deviation", r.shipment_id, r.cold_storage_temp,
          r.target_temp, "Critical"⟩]
      else [])

/-- C10: `check_cold_chain_alerts` flags a shipment iff the absolute
difference between its latest `cold_storage_temp` and its `target_temp`
exceeds the fixed constant 5, uniformly for every shipment; the evaluator
consumes only the generated table, which carries no tolerance column, so
the per-shipment tolerances are never consulted. -/
theorem C10_cold_chain_iff (df : List CCRow) (s : String) :
    ((∃ a ∈ check_cold_chain_alerts df, a.shipment = s) ↔
      (∃ r, lastOf (fun r => r.shipment_id) df s = some r ∧
        5 < |r.cold_storage_temp - r.target_temp|)) ∧
    (∀ a ∈ check_cold_chain_alerts df, a.severity = "Critical") := by
  constructor
  · unfold check_cold_chain_alerts
    constructor
    · rintro ⟨a, ha, hship⟩
      obtain ⟨r, hlast, hmem⟩ := (mem_flatMap_latestOf_iff _ df _ a).mp ha
      by_cases hdev : 5 < |r.cold_storage_temp - r.target_temp|
      · rw [if_pos hdev] at hmem
        have hak : a = ⟨"Temperature Deviation", r.shipment_id,
            r.cold_storage_temp, r.target_temp, "Critical"⟩ := by
          simpa using hmem
        have hkey : r.shipment_id = s := by
          rw [hak] at hship
          exact hship
        rw [hkey] at hlast
        exact ⟨r, hlast, hdev⟩
      · rw [if_neg hdev] at hmem
        exact absurd hmem (List.not_mem_nil a)
    · rintro ⟨r, hlast, hdev⟩
      have hkey : r.shipment_id = s := lastOf_key hlast
      refine ⟨⟨"Temperature Deviation", r.shipment_id, r.cold_storage_temp,
        r.target_temp, "Critical"⟩, ?_, hkey⟩
      apply (mem_flatMap_latestOf_iff _ df _ _).mpr
      refine ⟨r, ?_, ?_⟩
      · rw [hkey]
        exact hlast
      · rw [if_pos hdev]
        exact List.mem_singleton.mpr rfl
  · intro a ha
    unfold check_cold_chain_alerts at ha
    obtain ⟨r, _, hmem⟩ := (mem_flatMap_latestOf_iff _ df _ a).mp ha
    by_cases hdev : 5 < |r.cold_storage_temp - r.target_temp|
    · rw [if_pos hdev] at hmem
      have hak := List.mem_singleton.mp hmem
      rw [hak]
    · rw [if_neg hdev] at hmem
      exact absurd hmem (List.not_mem_nil a)

/-! ### Dashboard filters (`main`, src/app.py lines 850-858) -/

/-- `predictive_data['timestamp'].max()` (0 on an empty table, where pandas
would produce NaT; the filters below are only exercised on generated,
non-empty tables). -/
def tsMax (df : List PMRow) : ℤ :=
  df.foldr (fun r acc => max r.timestamp acc) 0

/-- The time-range filter of the predictive-maintenance tab: "Last 24 Hours"
and "Last 3 Days" keep rows with `timestamp >= max - window`; any other
selection ("Last 7 Days") returns the table unchanged. -/
def filterTimeRange (df : List PMRow) (range : String) : List PMRow :=
  if range = "Last 24 Hours" then
    df.filter (fun r => decide (tsMax df - 1440 ≤ r.timestamp))
  else if range = "Last 3 Days" then
    df.filter (fun r => decide (tsMax df - 3 * 1440 ≤ r.timestamp))
  else df

/-- The machine filter: "All Machines" keeps everything, otherwise rows of
the selected machine. -/
def filterMachine (df : List PMRow) (sel : String) : List PMRow :=
  if sel = "All Machines" then df
  else df.filter (fun r => decide (r.machine_id = sel))

/-- Two rows from different machines, used to instantiate the filter claims. -/
def pmRow1 : PMRow := ⟨60, "Machine_01", 5, 50, 10, 10, "excellent"⟩

/-- C4 counterexample: with the "Last 7 Days" time range and the
"All Machines" entity selection the filtered table equals the unfiltered
table, so it is not a strict (proper) subset of its rows. -/
theorem C4_counterexample :
    filterMachine (filterTimeRange [pmRow0, pmRow1] "Last 7 Days") "All Machines"
        = [pmRow0, pmRow1] ∧
    ([pmRow0, pmRow1] : List PMRow) ≠ [] := by
  constructor
  · rfl
  · simp

/-- C4 (amended): every filter selection offered by the dashboard (any
time-range choice combined with any machine choice) returns a subset — a
sublist — of the unfiltered table, but not in general a strict one: the
"Last 7 Days" / "All Machines" selections return the table unchanged. -/
theorem C4_filter_sublist (df : List PMRow) (range sel : String) :
    (filterMachine (filterTimeRange df range) sel).Sublist df := by
  have htime : (filterTimeRange df range).Sublist df := by
    unfold filterTimeRange
    split
    · exact List.filter_sublist df
    · split
      · exact List.filter_sublist df
      · exact List.Sublist.refl df
  unfold filterMachine
  split
  · exact htime
  · exact List.Sublist.trans (List.filter_sublist _) htime

/-! ### Production-line OEE (`generate_oee_data`, src/app.py lines 280-356) -/

/-- The production-line identifiers (`Line_A` .. `Line_E`). -/
def PRODUCTION_LINES : List String :=
  ["Line_A", "Line_B", "Line_C", "Line_D", "Line_E"]

/-- `line_profiles`: (efficiency, reliability, product) per line. -/
def line_profiles (line : String) : ℚ × ℚ × String :=
  if line = "Line_A" then (92/100, 95/100, "Electronics")
  else if line = "Line_B" then (88/100, 90/100, "Automotive")
  else if line = "Line_C" then (94/100, 97/100, "Pharmaceuticals")
  else if line = "Line_D" then (85/100, 87/100, "Food Processing")
  else (90/100, 92/100, "Textiles")

/-- The pseudo-random draws consumed for one (line, timestamp) step of
`generate_oee_data`, one field per sampling site in the source. -/
structure OeeDraws where
  base_av_off : ℚ    -- np.random.uniform(10, 30), off-hours availability base
  base_perf_off : ℚ  -- np.random.uniform(20, 50), off-hours performance base
  base_q_work : ℚ    -- np.random.uniform(92, 98), work-hours quality base
  base_q_off : ℚ     -- np.random.uniform(85, 95), off-hours quality base
  av_n : ℚ           -- np.random.normal(0, 3)
  p_n : ℚ            -- np.random.normal(0, 4)
  q_n : ℚ            -- np.random.normal(0, 2)
  issue : Bool       -- random.random() < 0.05
  issue_av : ℚ       -- np.random.uniform(0.6, 0.9)
  issue_p : ℚ        -- np.random.uniform(0.7, 0.9)
  q_issue : Bool     -- random.random() < 0.02
  q_mult : ℚ         -- np.random.uniform(0.8, 0.95)
  deriving Repr

/-- The pre-rounding availability/performance/quality/OEE values of one OEE
step (src/app.py lines 326-344): clip, then the occasional-issue
multipliers, then the OEE product. -/
structure OeeRaw where
  a : ℚ
  p : ℚ
  q : ℚ
  oee : ℚ
  deriving Repr

/-- Pre-rounding `availability_percent`: base times shift plus noise,
clipped to `[0, 100]`, degraded by the occasional-issue multiplier. -/
def oeeA (base_av shift : ℚ) (d : OeeDraws) : ℚ :=
  let a := clip (base_av * shift + d.av_n) 0 100
  if d.issue then a * d.issue_av else a

/-- Pre-rounding `performance_percent`. -/
def oeeP (base_perf shift : ℚ) (d : OeeDraws) : ℚ :=
  let p := clip (base_perf * shift + d.p_n) 0 100
  if d.issue then p * d.issue_p else p

/-- Pre-rounding `quality_percent`: clipped to `[70, 100]`, then the
2%-probability quality-issue multiplier. -/
def oeeQ (base_q : ℚ) (d : OeeDraws) : ℚ :=
  let q := clip (base_q + d.q_n) 70 100
  if d.q_issue then q * d.q_mult else q

def oeeFieldsRaw (base_av base_perf base_q shift : ℚ) (d : OeeDraws) : OeeRaw :=
  ⟨oeeA base_av shift d, oeeP base_perf shift d, oeeQ base_q d,
    oeeA base_av shift d * oeeP base_perf shift d * oeeQ base_q d / 10000⟩

/-- A row of the OEE table (rounded fields, as emitted). -/
structure OeeRow where
  timestamp : ℤ
  line_id : String
  product_type : String
  availability_percent : ℚ
  performance_percent : ℚ
  quality_percent : ℚ
  oee_percent : ℚ
  deriving DecidableEq, Repr

/-- The work-hours test `day_of_week < 5 and 6 <= hour <= 22`. -/
def oeeWorkHours (ts : ℤ) : Prop :=
  weekdayOf ts < 5 ∧ 6 ≤ hourOf ts ∧ hourOf ts ≤ 22

instance (ts : ℤ) : Decidable (oeeWorkHours ts) := by
  unfold oeeWorkHours
  infer_instance

/-- The (availability, performance, quality) bases of one OEE step:
profile-derived during work hours, freshly drawn otherwise. -/
def oeeBases (line : String) (ts : ℤ) (d : OeeDraws) : ℚ × ℚ × ℚ :=
  if oeeWorkHours ts then
    ((line_profiles line).2.1 * 100, (line_profiles line).1 * 100, d.base_q_work)
  else (d.base_av_off, d.base_perf_off, d.base_q_off)

/-- The shift factor of one OEE step. -/
def oeeShift (ts : ℤ) : ℚ :=
  if oeeWorkHours ts then
    if 6 ≤ hourOf ts ∧ hourOf ts ≤ 14 then 1
    else if 14 ≤ hourOf ts ∧ hourOf ts ≤ 22 then 95/100
    else 90/100
  else 8/10

/-- The loop body of `generate_oee_data` for one line and timestamp:
work-hours vs off-hours bases and shift factor, then the emitted row with
its rounded fields. -/
def oeeRowAt (line : String) (ts : ℤ) (d : OeeDraws) : OeeRow :=
  ⟨ts, line, (line_profiles line).2.2,
    round1 (oeeFieldsRaw (oeeBases line ts d).1 (oeeBases line ts d).2.1
      (oeeBases line ts d).2.2 (oeeShift ts) d).a,
    round1 (oeeFieldsRaw (oeeBases line ts d).1 (oeeBases line ts d).2.1
      (oeeBases line ts d).2.2 (oeeShift ts) d).p,
    round1 (oeeFieldsRaw (oeeBases line ts d).1 (oeeBases line ts d).2.1
      (oeeBases line ts d).2.2 (oeeShift ts) d).q,
    round1 (oeeFieldsRaw (oeeBases line ts d).1 (oeeBases line ts d).2.1
      (oeeBases line ts d).2.2 (oeeShift ts) d).oee⟩

/-- `pd.date_range(start, end, freq)` in minutes: the grid
`start, start+freq, ...` up to `end`. -/
def dateRange (startT endT freq : ℤ) : List ℤ :=
  (List.range (((endT - startT) / freq).toNat + 1)).map
    (fun (i : ℕ) => startT + freq * (i : ℤ))

/-- The OEE timestamp grid: a trailing 7-day window ending at the current
time, at 30-minute frequency. -/
def oeeTimestamps (now : ℤ) : List ℤ := dateRange (now - 7 * 1440) now 30

/-- `generate_oee_data`, as a function of the invocation time
(`datetime.now()`, in minutes) and of the pseudo-random draws consumed at
each (line, timestamp) step. -/
def generate_oee_data (now : ℤ) (draws : String → ℤ → OeeDraws) : List OeeRow :=
  PRODUCTION_LINES.flatMap
    (fun line => (oeeTimestamps now).map (fun ts => oeeRowAt line ts (draws line ts)))

theorem now_mem_oeeTimestamps (now : ℤ) : now ∈ oeeTimestamps now := by
  unfold oeeTimestamps dateRange
  apply List.mem_map.mpr
  refine ⟨336, ?_, ?_⟩
  · apply List.mem_range.mpr
    have h1 : now - (now - 7 * 1440) = 10080 := by ring
    rw [h1]
    decide
  · norm_num

theorem le_of_mem_oeeTimestamps {now t : ℤ} (h : t ∈ oeeTimestamps now) :
    t ≤ now := by
  unfold oeeTimestamps dateRange at h
  obtain ⟨i, hi, hf⟩ := List.mem_map.mp h
  rw [List.mem_range] at hi
  have h1 : now - (now - 7 * 1440) = 10080 := by ring
  rw [h1] at hi
  norm_num at hi
  have hiz : (i : ℤ) ≤ 336 := by exact_mod_cast Nat.lt_succ_iff.mp hi
  have : now - 7 * 1440 + 30 * (i : ℤ) ≤ now := by linarith
  linarith [hf ▸ this]

/-- `humidity_percent` of one factory-environment row (src/app.py lines
229-230 and 272): the raw value, clipped to `[30, 85]`, then rounded. -/
def humidity_percent_of (temperature_C noise : ℚ) : ℚ :=
  round1 (clip (60 - (temperature_C - 20) * (3/2) + noise) 30 85)

/-- `failure_risk_score` of one predictive-maintenance row (src/app.py
lines 108-114 and 123): threshold surcharges, then `min(100, max(0, s))`,
then rounded. -/
def failure_risk_score_of (base_failure_risk vibration_rms temperature_C : ℚ) : ℚ :=
  let s := base_failure_risk
  let s := if 12 < vibration_rms then s + (vibration_rms - 12) * 5 else s
  let s := if 80 < temperature_C then s + (temperature_C - 80) * 3 else s
  round1 (min 100 (max 0 s))

theorem oeeA_bounds (base_av shift : ℚ) (d : OeeDraws)
    (h1 : 3/5 ≤ d.issue_av) (h2 : d.issue_av ≤ 9/10) :
    0 ≤ oeeA base_av shift d ∧ oeeA base_av shift d ≤ 100 := by
  have c1 : (0:ℚ) ≤ clip (base_av * shift + d.av_n) 0 100 := le_clip (by norm_num)
  have c2 : clip (base_av * shift + d.av_n) 0 100 ≤ 100 := clip_le
  unfold oeeA
  cases hi : d.issue
  · simpa using ⟨c1, c2⟩
  · simp only [if_true]
    constructor
    · nlinarith
    · nlinarith

theorem oeeP_bounds (base_perf shift : ℚ) (d : OeeDraws)
    (h1 : 7/10 ≤ d.issue_p) (h2 : d.issue_p ≤ 9/10) :
    0 ≤ oeeP base_perf shift d ∧ oeeP base_perf shift d ≤ 100 := by
  have c1 : (0:ℚ) ≤ clip (base_perf * shift + d.p_n) 0 100 := le_clip (by norm_num)
  have c2 : clip (base_perf * shift + d.p_n) 0 100 ≤ 100 := clip_le
  unfold oeeP
  cases hi : d.issue
  · simpa using ⟨c1, c2⟩
  · simp only [if_true]
    constructor
    · nlinarith
    · nlinarith

theorem oeeQ_bounds (base_q : ℚ) (d : OeeDraws)
    (h1 : 4/5 ≤ d.q_mult) (h2 : d.q_mult ≤ 19/20) :
    56 ≤ oeeQ base_q d ∧ oeeQ base_q d ≤ 100 := by
  have c1 : (70:ℚ) ≤ clip (base_q + d.q_n) 70 100 := le_clip (by norm_num)
  have c2 : clip (base_q + d.q_n) 70 100 ≤ 100 := clip_le
  unfold oeeQ
  cases hi : d.q_issue
  · simp only [Bool.false_eq_true, if_false]
    exact ⟨by linarith, c2⟩
  · simp only [if_true]
    constructor
    · nlinarith
    · nlinarith

theorem clip_eq_self {x lo hi : ℚ} (h1 : lo ≤ x) (h2 : x ≤ hi) :
    clip x lo hi = x := by
  unfold clip
  rw [max_eq_left h1, min_eq_right h2]

theorem mul_sub_abs_le {x y x' y' Bx By : ℚ} (hx0 : 0 ≤ x) (hx : x ≤ Bx)
    (hy0 : 0 ≤ y') (hy : y' ≤ By) :
    |x * y - x' * y'| ≤ Bx * |y - y'| + By * |x - x'| := by
  have hkey : x * y - x' * y' = x * (y - y') + (x - x') * y' := by ring
  rw [hkey]
  calc |x * (y - y') + (x - x') * y'| ≤ |x * (y - y')| + |(x - x') * y'| :=
        abs_add _ _
  _ = |x| * |y - y'| + |x - x'| * |y'| := by rw [abs_mul, abs_mul]
  _ ≤ Bx * |y - y'| + By * |x - x'| := by
      rw [abs_of_nonneg hx0, abs_of_nonneg hy0]
      have h1 := abs_nonneg (y - y')
      have h2 := abs_nonneg (x - x')
      nlinarith

/-- C2 (amended): every generated field with a declared clip range stays in
range — `humidity_percent` in `[30, 85]`, `failure_risk_score` in
`[0, 100]`, `availability_percent` and `performance_percent` in `[0, 100]`
— but `quality_percent` of the OEE table is only guaranteed to lie in
`[56, 100]`: the 2%-probability quality-issue multiplier
(`uniform(0.8, 0.95)`) is applied after the clip to `[70, 100]` and can
push the emitted value down to `0.8 * 70 = 56`. -/
theorem C2_bounds (now : ℤ) (draws : String → ℤ → OeeDraws)
    (hsup : ∀ line ts, 3/5 ≤ (draws line ts).issue_av ∧
      (draws line ts).issue_av ≤ 9/10 ∧
      7/10 ≤ (draws line ts).issue_p ∧ (draws line ts).issue_p ≤ 9/10 ∧
      4/5 ≤ (draws line ts).q_mult ∧ (draws line ts).q_mult ≤ 19/20) :
    (∀ t n, 30 ≤ humidity_percent_of t n ∧ humidity_percent_of t n ≤ 85) ∧
    (∀ b v tp, 0 ≤ failure_risk_score_of b v tp ∧
      failure_risk_score_of b v tp ≤ 100) ∧
    (∀ r ∈ generate_oee_data now draws,
      (0 ≤ r.availability_percent ∧ r.availability_percent ≤ 100) ∧
      (0 ≤ r.performance_percent ∧ r.performance_percent ≤ 100) ∧
      (56 ≤ r.quality_percent ∧ r.quality_percent ≤ 100)) := by
  refine ⟨?_, ?_, ?_⟩
  · intro t n
    constructor
    · have h := le_clip (x := 60 - (t - 20) * (3/2) + n) (show (30:ℚ) ≤ 85 by norm_num)
      exact_mod_cast le_round1_of_le (A := 30) (by exact_mod_cast h)
    · have h : clip (60 - (t - 20) * (3/2) + n) 30 85 ≤ 85 := clip_le
      exact_mod_cast round1_le_of_le (B := 85) (by exact_mod_cast h)
  · intro b v tp
    unfold failure_risk_score_of
    constructor
    · have h : (0:ℚ) ≤ min 100 (max 0 (if 80 < tp then
          (if 12 < v then b + (v - 12) * 5 else b) + (tp - 80) * 3
        else if 12 < v then b + (v - 12) * 5 else b)) := by
        apply le_min (by norm_num) (le_max_left _ _)
      exact_mod_cast le_round1_of_le (A := 0) (by exact_mod_cast h)
    · have h : min (100:ℚ) (max 0 (if 80 < tp then
          (if 12 < v then b + (v - 12) * 5 else b) + (tp - 80) * 3
        else if 12 < v then b + (v - 12) * 5 else b)) ≤ 100 := min_le_left _ _
      exact_mod_cast round1_le_of_le (B := 100) (by exact_mod_cast h)
  · intro r hr
    unfold generate_oee_data at hr
    obtain ⟨line, _, hline⟩ := List.mem_flatMap.mp hr
    obtain ⟨ts, _, hrow⟩ := List.mem_map.mp hline
    obtain ⟨s1, s2, s3, s4, s5, s6⟩ := hsup line ts
    obtain ⟨a1, a2⟩ := oeeA_bounds (oeeBases line ts (draws line ts)).1
      (oeeShift ts) (draws line ts) s1 s2
    obtain ⟨p1, p2⟩ := oeeP_bounds (oeeBases line ts (draws line ts)).2.1
      (oeeShift ts) (draws line ts) s3 s4
    obtain ⟨q1, q2⟩ := oeeQ_bounds (oeeBases line ts (draws line ts)).2.2
      (draws line ts) s5 s6
    rw [← hrow]
    refine ⟨⟨?_, ?_⟩, ⟨?_, ?_⟩, ⟨?_, ?_⟩⟩
    · show (0:ℚ) ≤ round1 (oeeA (oeeBases line ts (draws line ts)).1
        (oeeShift ts) (draws line ts))
      exact_mod_cast le_round1_of_le (A := 0) (by exact_mod_cast a1)
    · show round1 (oeeA (oeeBases line ts (draws line ts)).1
        (oeeShift ts) (draws line ts)) ≤ 100
      exact_mod_cast round1_le_of_le (B := 100) (by exact_mod_cast a2)
    · show (0:ℚ) ≤ round1 (oeeP (oeeBases line ts (draws line ts)).2.1
        (oeeShift ts) (draws line ts))
      exact_mod_cast le_round1_of_le (A := 0) (by exact_mod_cast p1)
    · show round1 (oeeP (oeeBases line ts (draws line ts)).2.1
        (oeeShift ts) (draws line ts)) ≤ 100
      exact_mod_cast round1_le_of_le (B := 100) (by exact_mod_cast p2)
    · show (56:ℚ) ≤ round1 (oeeQ (oeeBases line ts (draws line ts)).2.2
        (draws line ts))
      exact_mod_cast le_round1_of_le (A := 56) (by exact_mod_cast q1)
    · show round1 (oeeQ (oeeBases line ts (draws line ts)).2.2
        (draws line ts)) ≤ 100
      exact_mod_cast round1_le_of_le (B := 100) (by exact_mod_cast q2)

/-- Constant draws, every field inside the support of the distribution
sampled at the corresponding site of `generate_oee_data`. -/
def constDraws : OeeDraws :=
  ⟨20, 30, 92, 85, 0, 0, -15, false, 7/10, 8/10, true, 4/5⟩

/-- C2 counterexample: the OEE table generated at time 0 (with draws in the
support of their distributions) contains a row whose emitted
`quality_percent` is 56, strictly below the claimed clip range `[70, 100]`. -/
theorem C2_counterexample :
    ∃ r ∈ generate_oee_data 0 (fun _ _ => constDraws),
      r.quality_percent < 70 := by
  refine ⟨oeeRowAt "Line_A" 0 constDraws, ?_, ?_⟩
  · unfold generate_oee_data
    apply List.mem_flatMap.mpr
    refine ⟨"Line_A", ?_, ?_⟩
    · unfold PRODUCTION_LINES
      exact List.mem_cons_self _ _
    · apply List.mem_map.mpr
      exact ⟨0, now_mem_oeeTimestamps 0, rfl⟩
  · show round1 (oeeQ (oeeBases "Line_A" 0 constDraws).2.2 constDraws) < 70
    have hwh : ¬ oeeWorkHours 0 := by
      norm_num [oeeWorkHours, hourOf, weekdayOf]
    have hb : (oeeBases "Line_A" 0 constDraws).2.2 = 85 := by
      rw [oeeBases, if_neg hwh]
      rfl
    have hq : oeeQ (85:ℚ) constDraws = 56 := by
      show (if constDraws.q_issue then clip (85 + constDraws.q_n) 70 100 * constDraws.q_mult
        else clip (85 + constDraws.q_n) 70 100) = 56
      norm_num [constDraws, clip]
    rw [hb, hq]
    norm_num [round1, rhe, Int.fract]

/-- Witness for `C2_bounds` with the concrete constant draws. -/
theorem C2_bounds_witness :
    (∀ t n, 30 ≤ humidity_percent_of t n ∧ humidity_percent_of t n ≤ 85) ∧
    (∀ b v tp, 0 ≤ failure_risk_score_of b v tp ∧
      failure_risk_score_of b v tp ≤ 100) ∧
    (∀ r ∈ generate_oee_data 0 (fun _ _ => constDraws),
      (0 ≤ r.availability_percent ∧ r.availability_percent ≤ 100) ∧
      (0 ≤ r.performance_percent ∧ r.performance_percent ≤ 100) ∧
      (56 ≤ r.quality_percent ∧ r.quality_percent ≤ 100)) :=
  C2_bounds 0 (fun _ _ => constDraws)
    (fun _ _ => by refine ⟨?_, ?_, ?_, ?_, ?_, ?_⟩ <;> norm_num [constDraws])

/-- C6 (amended): the emitted `oee_percent` is the rounding of the OEE
composite computed from the pre-rounding availability/performance/quality
values, so it matches the composite recomputed from the row's rounded
fields only to within 0.2. -/
theorem C6_oee_formula (line : String) (ts : ℤ) (d : OeeDraws)
    (hav1 : 3/5 ≤ d.issue_av) (hav2 : d.issue_av ≤ 9/10)
    (hp1 : 7/10 ≤ d.issue_p) (hp2 : d.issue_p ≤ 9/10)
    (hq1 : 4/5 ≤ d.q_mult) (hq2 : d.q_mult ≤ 19/20) :
    |(oeeRowAt line ts d).oee_percent -
      (oeeRowAt line ts d).availability_percent *
        (oeeRowAt line ts d).performance_percent *
        (oeeRowAt line ts d).quality_percent / 10000| ≤ 1/5 := by
  obtain ⟨a1, a2⟩ := oeeA_bounds (oeeBases line ts d).1 (oeeShift ts) d hav1 hav2
  obtain ⟨p1, p2⟩ := oeeP_bounds (oeeBases line ts d).2.1 (oeeShift ts) d hp1 hp2
  obtain ⟨q1, q2⟩ := oeeQ_bounds (oeeBases line ts d).2.2 d hq1 hq2
  show |round1 (oeeA (oeeBases line ts d).1 (oeeShift ts) d *
      oeeP (oeeBases line ts d).2.1 (oeeShift ts) d *
      oeeQ (oeeBases line ts d).2.2 d / 10000) -
    round1 (oeeA (oeeBases line ts d).1 (oeeShift ts) d) *
      round1 (oeeP (oeeBases line ts d).2.1 (oeeShift ts) d) *
      round1 (oeeQ (oeeBases line ts d).2.2 d) / 10000| ≤ 1/5
  set A := oeeA (oeeBases line ts d).1 (oeeShift ts) d with hA
  set P := oeeP (oeeBases line ts d).2.1 (oeeShift ts) d with hP
  set Q := oeeQ (oeeBases line ts d).2.2 d with hQ
  have q0 : (0:ℚ) ≤ Q := by linarith
  have ra0 : (0:ℚ) ≤ round1 A := by
    exact_mod_cast le_round1_of_le (A := 0) (by exact_mod_cast a1)
  have ra1 : round1 A ≤ 100 := by
    exact_mod_cast round1_le_of_le (B := 100) (by exact_mod_cast a2)
  have rp0 : (0:ℚ) ≤ round1 P := by
    exact_mod_cast le_round1_of_le (A := 0) (by exact_mod_cast p1)
  have rp1 : round1 P ≤ 100 := by
    exact_mod_cast round1_le_of_le (B := 100) (by exact_mod_cast p2)
  have rq0 : (0:ℚ) ≤ round1 Q := by
    have h56 : ((56:ℤ):ℚ) ≤ round1 Q := le_round1_of_le (by exact_mod_cast q1)
    have : (56:ℚ) ≤ round1 Q := by exact_mod_cast h56
    linarith
  have rq1 : round1 Q ≤ 100 := by
    exact_mod_cast round1_le_of_le (B := 100) (by exact_mod_cast q2)
  have da : |A - round1 A| ≤ 1/20 := by
    rw [abs_sub_comm]
    exact abs_round1_sub_le A
  have dp : |P - round1 P| ≤ 1/20 := by
    rw [abs_sub_comm]
    exact abs_round1_sub_le P
  have dq : |Q - round1 Q| ≤ 1/20 := by
    rw [abs_sub_comm]
    exact abs_round1_sub_le Q
  have h1 : |A * P - round1 A * round1 P| ≤ 100 * |P - round1 P| + 100 * |A - round1 A| :=
    mul_sub_abs_le a1 a2 rp0 rp1
  have h1' : |A * P - round1 A * round1 P| ≤ 10 := by linarith
  have hap0 : 0 ≤ A * P := mul_nonneg a1 p1
  have hap1 : A * P ≤ 10000 := by nlinarith
  have h2 : |A * P * Q - round1 A * round1 P * round1 Q| ≤
      10000 * |Q - round1 Q| + 100 * |A * P - round1 A * round1 P| :=
    mul_sub_abs_le hap0 hap1 rq0 rq1
  have h2' : |A * P * Q - round1 A * round1 P * round1 Q| ≤ 1500 := by linarith
  have h3 : |round1 (A * P * Q / 10000) - A * P * Q / 10000| ≤ 1/20 :=
    abs_round1_sub_le _
  have h4 : |A * P * Q / 10000 - round1 A * round1 P * round1 Q / 10000| ≤ 3/20 := by
    rw [abs_le] at h2' ⊢
    constructor <;> linarith [h2'.1, h2'.2]
  have h5 := abs_add (round1 (A * P * Q / 10000) - A * P * Q / 10000)
    (A * P * Q / 10000 - round1 A * round1 P * round1 Q / 10000)
  have heq : (round1 (A * P * Q / 10000) - A * P * Q / 10000) +
      (A * P * Q / 10000 - round1 A * round1 P * round1 Q / 10000) =
      round1 (A * P * Q / 10000) - round1 A * round1 P * round1 Q / 10000 := by
    ring
  rw [heq] at h5
  linarith

/-- Concrete draws (inside the distributions' supports) at which the OEE
row's `oee_percent` disagrees with the composite of the rounded fields:
all three pre-rounding components come out at 99.94. -/
def c6Draws : OeeDraws :=
  ⟨20, 30, 92, 85, 147/50, 297/50, 397/50, false, 7/10, 8/10, false, 9/10⟩

/-- C6 counterexample: in the emitted row the stored `oee_percent` (99.8,
rounded from the pre-rounding composite 99.8201...) differs from the
composite of the row's rounded fields (99.9 each, giving 99.7003 and thus
99.7 after rounding). -/
theorem C6_counterexample :
    (oeeRowAt "Line_C" 360 c6Draws).oee_percent ≠
      round1 ((oeeRowAt "Line_C" 360 c6Draws).availability_percent *
        (oeeRowAt "Line_C" 360 c6Draws).performance_percent *
        (oeeRowAt "Line_C" 360 c6Draws).quality_percent / 10000) := by
  have hh : hourOf 360 = 6 := by norm_num [hourOf]
  have hwd : weekdayOf 360 = 0 := by norm_num [weekdayOf]
  have hwh : oeeWorkHours 360 := by
    refine ⟨?_, ?_, ?_⟩
    · rw [hwd]
      norm_num
    · rw [hh]
    · rw [hh]
      norm_num
  have h2 : 6 ≤ hourOf 360 ∧ hourOf 360 ≤ 14 := by
    rw [hh]
    norm_num
  have hpr : line_profiles "Line_C" = (94/100, 97/100, "Pharmaceuticals") := rfl
  have hb : oeeBases "Line_C" 360 c6Draws = (97, 94, 92) := by
    rw [oeeBases, if_pos hwh, hpr]
    norm_num [c6Draws]
  have hsh : oeeShift 360 = 1 := by
    rw [oeeShift, if_pos hwh, if_pos h2]
  have hA : oeeA (97:ℚ) 1 c6Draws = 4997/50 := by
    show (if c6Draws.issue then clip ((97:ℚ) * 1 + c6Draws.av_n) 0 100 * c6Draws.issue_av
      else clip ((97:ℚ) * 1 + c6Draws.av_n) 0 100) = 4997/50
    have hv : (97:ℚ) * 1 + c6Draws.av_n = 4997/50 := by norm_num [c6Draws]
    rw [hv, clip_eq_self (by norm_num) (by norm_num)]
    norm_num [c6Draws]
  have hPp : oeeP (94:ℚ) 1 c6Draws = 4997/50 := by
    show (if c6Draws.issue then clip ((94:ℚ) * 1 + c6Draws.p_n) 0 100 * c6Draws.issue_p
      else clip ((94:ℚ) * 1 + c6Draws.p_n) 0 100) = 4997/50
    have hv : (94:ℚ) * 1 + c6Draws.p_n = 4997/50 := by norm_num [c6Draws]
    rw [hv, clip_eq_self (by norm_num) (by norm_num)]
    norm_num [c6Draws]
  have hQq : oeeQ (92:ℚ) c6Draws = 4997/50 := by
    show (if c6Draws.q_issue then clip ((92:ℚ) + c6Draws.q_n) 70 100 * c6Draws.q_mult
      else clip ((92:ℚ) + c6Draws.q_n) 70 100) = 4997/50
    have hv : (92:ℚ) + c6Draws.q_n = 4997/50 := by norm_num [c6Draws]
    rw [hv, clip_eq_self (by norm_num) (by norm_num)]
    norm_num [c6Draws]
  have hoee : (oeeRowAt "Line_C" 360 c6Draws).oee_percent =
      round1 ((4997/50 : ℚ) * (4997/50) * (4997/50) / 10000) := by
    show round1 (oeeA (oeeBases "Line_C" 360 c6Draws).1 (oeeShift 360) c6Draws *
      oeeP (oeeBases "Line_C" 360 c6Draws).2.1 (oeeShift 360) c6Draws *
      oeeQ (oeeBases "Line_C" 360 c6Draws).2.2 c6Draws / 10000) = _
    rw [hb, hsh]
    dsimp only
    rw [hA, hPp, hQq]
  have hav : (oeeRowAt "Line_C" 360 c6Draws).availability_percent =
      round1 ((4997/50 : ℚ)) := by
    show round1 (oeeA (oeeBases "Line_C" 360 c6Draws).1 (oeeShift 360) c6Draws) = _
    rw [hb, hsh]
    dsimp only
    rw [hA]
  have hperf : (oeeRowAt "Line_C" 360 c6Draws).performance_percent =
      round1 ((4997/50 : ℚ)) := by
    show round1 (oeeP (oeeBases "Line_C" 360 c6Draws).2.1 (oeeShift 360) c6Draws) = _
    rw [hb, hsh]
    dsimp only
    rw [hPp]
  have hqual : (oeeRowAt "Line_C" 360 c6Draws).quality_percent =
      round1 ((4997/50 : ℚ)) := by
    show round1 (oeeQ (oeeBases "Line_C" 360 c6Draws).2.2 c6Draws) = _
    rw [hb]
    dsimp only
    rw [hQq]
  have hr1 : round1 ((4997/50 : ℚ)) = 999/10 := by
    norm_num [round1, rhe, Int.fract]
  have hr2 : round1 ((4997/50 : ℚ) * (4997/50) * (4997/50) / 10000) = 499/5 := by
    norm_num [round1, rhe, Int.fract]
  have hr3 : round1 ((999/10 : ℚ) * (999/10) * (999/10) / 10000) = 997/10 := by
    norm_num [round1, rhe, Int.fract]
  rw [hoee, hav, hperf, hqual, hr2, hr1, hr3]
  norm_num

/-- Witness for `C6_oee_formula` at the concrete draws `c6Draws`. -/
theorem C6_oee_formula_witness :
    (3/5 ≤ c6Draws.issue_av ∧ c6Draws.issue_av ≤ 9/10 ∧
      7/10 ≤ c6Draws.issue_p ∧ c6Draws.issue_p ≤ 9/10 ∧
      4/5 ≤ c6Draws.q_mult ∧ c6Draws.q_mult ≤ 19/20) ∧
    |(oeeRowAt "Line_C" 360 c6Draws).oee_percent -
      (oeeRowAt "Line_C" 360 c6Draws).availability_percent *
        (oeeRowAt "Line_C" 360 c6Draws).performance_percent *
        (oeeRowAt "Line_C" 360 c6Draws).quality_percent / 10000| ≤ 1/5 :=
  ⟨by refine ⟨?_, ?_, ?_, ?_, ?_, ?_⟩ <;> norm_num [c6Draws],
    C6_oee_formula "Line_C" 360 c6Draws (by norm_num [c6Draws])
      (by norm_num [c6Draws]) (by norm_num [c6Draws]) (by norm_num [c6Draws])
      (by norm_num [c6Draws]) (by norm_num [c6Draws])⟩

/-! ### Render-time guards (`main`, src/app.py lines 874-888 and 1059-1070) -/

/-- A row of the machine-status table. -/
structure StatusRow where
  timestamp : ℤ
  machine_id : String
  rpm : ℚ
  energy_kWh : ℚ
  status : String
  deriving DecidableEq, Repr

/-- pandas `Series.mean()`: `none` models the NaN produced on an empty
series. -/
def qmean (l : List ℚ) : Option ℚ :=
  if l.isEmpty then none else some (l.sum / l.length)

/-- Rendering of `f"{x:.0f}"` for a finite value. -/
def fmtF0 (x : ℚ) : String := toString (rhe x)

/-- Rendering of `f"{x:.1f}"` for a finite non-negative value. -/
def fmtF1 (x : ℚ) : String :=
  toString (rhe (10 * x) / 10) ++ "." ++ toString (rhe (10 * x) % 10)

/-- The average-RPM metric of the machine-status tab (src/app.py lines
1069-1070): the mean RPM over the latest rows with status Running, rendered
behind an explicit NaN guard that substitutes the default "0". -/
def avgRpmDisplay (latest_status : List StatusRow) : String :=
  match qmean ((latest_status.filter (fun r => decide (r.status = "Running"))).map
      (fun r => r.rpm)) with
  | none => "0"
  | some v => fmtF0 v

/-- The average-vibration metric of the predictive-maintenance tab
(src/app.py lines 875-876): `latest['vibration_rms'].mean()` rendered as
`f"{...:.1f} mm/s"` with no guard; on an empty table the mean is NaN and
the widget shows "nan mm/s". -/
def avgVibrationDisplay (latest_data : List PMRow) : String :=
  match qmean (latest_data.map (fun r => r.vibration_rms)) with
  | none => "nan" ++ " mm/s"
  | some v => fmtF1 v ++ " mm/s"

/-- The average-temperature metric (src/app.py lines 879-880), unguarded. -/
def avgTempDisplay (latest_data : List PMRow) : String :=
  match qmean (latest_data.map (fun r => r.temperature_C)) with
  | none => "nan" ++ "°C"
  | some v => fmtF1 v ++ "°C"

/-- The average-failure-risk metric (src/app.py lines 883-884), unguarded. -/
def avgRiskDisplay (latest_data : List PMRow) : String :=
  match qmean (latest_data.map (fun r => r.failure_risk_score)) with
  | none => "nan" ++ "%"
  | some v => fmtF1 v ++ "%"

/-- C7 counterexample: the average-vibration metric has no empty-aggregate
guard — on an empty filtered table it renders the NaN string instead of a
substituted default display value. -/
theorem C7_counterexample :
    avgVibrationDisplay [] = "nan mm/s" ∧ avgVibrationDisplay [] ≠ "0" := by
  constructor
  · rfl
  · decide

/-- C7 (amended): only the average-RPM metric guards the empty aggregate,
substituting the default "0" (also when no latest row has status Running);
the other averaged metrics of the predictive-maintenance tab — average
vibration, temperature and failure risk — are unguarded and render "nan"
when the filtered table is empty. -/
theorem C7_guards :
    avgRpmDisplay [] = "0" ∧
    avgRpmDisplay [⟨0, "Machine_01", 0, 1, "Stopped"⟩] = "0" ∧
    avgVibrationDisplay [] = "nan mm/s" ∧
    avgTempDisplay [] = "nan°C" ∧
    avgRiskDisplay [] = "nan%" := by
  exact ⟨rfl, rfl, rfl, rfl, rfl⟩

/-! ### Determinism across runs (src/app.py lines 52-56, 144-153, 283-285) -/

theorem mem_generate_oee_now (now : ℤ) (o : String → ℤ → OeeDraws) :
    ∃ r ∈ generate_oee_data now o, r.timestamp = now := by
  refine ⟨oeeRowAt "Line_A" now (o "Line_A" now), ?_, rfl⟩
  unfold generate_oee_data
  apply List.mem_flatMap.mpr
  refine ⟨"Line_A", ?_, ?_⟩
  · unfold PRODUCTION_LINES
    exact List.mem_cons_self _ _
  · exact List.mem_map.mpr ⟨now, now_mem_oeeTimestamps now, rfl⟩

theorem ts_le_generate_oee (now : ℤ) (o : String → ℤ → OeeDraws) :
    ∀ r ∈ generate_oee_data now o, r.timestamp ≤ now := by
  intro r hr
  unfold generate_oee_data at hr
  obtain ⟨line, _, hline⟩ := List.mem_flatMap.mp hr
  obtain ⟨ts, hts, hrow⟩ := List.mem_map.mp hline
  rw [← hrow]
  exact le_of_mem_oeeTimestamps hts

/-- C8 (amended): each generator is a pure function of the invocation time
(`datetime.now()`) and of the unseeded pseudo-random draws, so within a
run the cached table is reproducible; but no seed is ever fixed and the
timestamp grid is anchored at the invocation time, so two executions at
different wall-clock times always produce different tables — the claimed
cross-run determinism fails. -/
theorem C8_time_dependent (t₁ t₂ : ℤ) (o₁ o₂ : String → ℤ → OeeDraws)
    (h : t₁ ≠ t₂) :
    generate_oee_data t₁ o₁ ≠ generate_oee_data t₂ o₂ := by
  intro heq
  rcases lt_or_gt_of_ne h with hlt | hgt
  · obtain ⟨r, hr, hts⟩ := mem_generate_oee_now t₂ o₂
    rw [← heq] at hr
    have := ts_le_generate_oee t₁ o₁ r hr
    omega
  · obtain ⟨r, hr, hts⟩ := mem_generate_oee_now t₁ o₁
    rw [heq] at hr
    have := ts_le_generate_oee t₂ o₂ r hr
    omega

/-- C8 counterexample: two executions of the OEE generator 30 minutes apart
produce different tables, even with identical pseudo-random draws. -/
theorem C8_counterexample :
    generate_oee_data 0 (fun _ _ => constDraws) ≠
      generate_oee_data 30 (fun _ _ => constDraws) := by
  intro heq
  obtain ⟨r, hr, hts⟩ := mem_generate_oee_now 30 (fun _ _ => constDraws)
  rw [← heq] at hr
  have := ts_le_generate_oee 0 (fun _ _ => constDraws) r hr
  omega

/-- Witness for `C8_time_dependent` at two concrete invocation times. -/
theorem C8_time_dependent_witness :
    ((0:ℤ) ≠ 30) ∧
    generate_oee_data 0 (fun _ _ => c6Draws) ≠
      generate_oee_data 30 (fun _ _ => c6Draws) :=
  ⟨by norm_num,
    C8_time_dependent 0 30 (fun _ _ => c6Draws) (fun _ _ => c6Draws) (by norm_num)⟩

/-! ### Inventory generation (`generate_inventory_data`, src/app.py lines
501-563) -/

/-- The pseudo-random draws consumed by one hourly step of
`generate_inventory_data` for one SKU. -/
structure InvDraws where
  cons_noise : ℚ       -- np.random.normal(0, 0.5)
  restock_roll : Bool  -- random.random() < 0.1
  restock_amount : ℤ   -- np.random.randint(200, 800)
  eta : ℤ              -- np.random.randint(6, 48)
  deriving Repr

/-- The consumption multiplier by hour and weekday (src/app.py lines
529-535). -/
def consumption_multiplier (ts : ℤ) : ℚ :=
  if weekdayOf ts < 5 ∧ 8 ≤ hourOf ts ∧ hourOf ts ≤ 17 then 1
  else if weekdayOf ts < 5 then 3/10
  else 1/2

/-- One step of the inventory loop (src/app.py lines 525-561): consumption,
then the restocking logic, returning the updated running stock and the
emitted row. -/
def invStep (sku warehouse : String) (reorder_point : ℤ) (cons_rate stock : ℚ)
    (ts : ℤ) (d : InvDraws) : ℚ × InvRow :=
  let consumption := max 0 (cons_rate * consumption_multiplier ts + d.cons_noise)
  let stock1 := max 0 (stock - consumption)
  if stock1 ≤ (reorder_point : ℚ) then
    if d.restock_roll then
      (stock1 + (d.restock_amount : ℚ),
        ⟨ts, sku, warehouse, round0 (stock1 + (d.restock_amount : ℚ)),
          reorder_point, none⟩)
    else (stock1, ⟨ts, sku, warehouse, round0 stock1, reorder_point, some d.eta⟩)
  else (stock1, ⟨ts, sku, warehouse, round0 stock1, reorder_point, none⟩)

/-- The per-SKU inventory series: fold `invStep` over the timestamp grid,
carrying the running stock. -/
def invRows (sku warehouse : String) (reorder_point : ℤ) (cons_rate stock : ℚ)
    (tss : List ℤ) (draws : ℤ → InvDraws) : List InvRow :=
  match tss with
  | [] => []
  | ts :: rest =>
    (invStep sku warehouse reorder_point cons_rate stock ts (draws ts)).2 ::
      invRows sku warehouse reorder_point cons_rate
        (invStep sku warehouse reorder_point cons_rate stock ts (draws ts)).1
        rest draws

theorem invStep_eta (sku wh : String) (R : ℤ) (rate stock : ℚ) (ts : ℤ)
    (d : InvDraws) :
    ((invStep sku wh R rate stock ts d).2.restock_eta).isSome = true →
      (invStep sku wh R rate stock ts d).2.stock_level ≤ (R : ℚ) := by
  dsimp only [invStep]
  split
  · rename_i hle
    split
    · intro h
      simp at h
    · intro _
      exact round0_le_of_le hle
  · intro h
    simp at h

/-- C9: in every emitted inventory row, a non-null `restock_eta` implies
`stock_level <= reorder_point`: an ETA is only reported for a SKU whose
stock is at or below its reorder threshold. -/
theorem C9_restock_eta (sku wh : String) (R : ℤ) (rate stock : ℚ)
    (tss : List ℤ) (draws : ℤ → InvDraws) :
    ∀ r ∈ invRows sku wh R rate stock tss draws,
      r.restock_eta.isSome = true → r.stock_level ≤ (R : ℚ) := by
  induction tss generalizing stock with
  | nil =>
    intro r hr
    exact absurd hr (List.not_mem_nil r)
  | cons ts rest ih =>
    intro r hr
    rcases List.mem_cons.mp hr with heq | hmem
    · rw [heq]
      exact invStep_eta sku wh R rate stock ts (draws ts)
    · exact ih _ r hmem

/-- Witness for `C9_restock_eta`: a one-step series in which the emitted
row reports a restock ETA with stock 100 at or below the reorder point 150. -/
theorem C9_restock_eta_witness :
    ((⟨0, "SKU_2000", "WH_001", 100, 150, some 24⟩ : InvRow) ∈
        invRows "SKU_2000" "WH_001" 150 1 100 [0]
          (fun _ => ⟨-3/10, false, 500, 24⟩)) ∧
    (some (24:ℤ)).isSome = true ∧
    ((100:ℚ) ≤ ((150:ℤ) : ℚ)) := by
  have hm : consumption_multiplier 0 = 3/10 := by
    norm_num [consumption_multiplier, hourOf, weekdayOf]
  have hstep : invStep "SKU_2000" "WH_001" 150 1 (100:ℚ) 0 ⟨-3/10, false, 500, 24⟩ =
      ((100:ℚ), ⟨0, "SKU_2000", "WH_001", 100, 150, some 24⟩) := by
    dsimp only [invStep]
    rw [hm]
    have hc : max (0:ℚ) (1 * (3/10) + (-3/10)) = 0 := by norm_num
    rw [hc]
    have hs : max (0:ℚ) (100 - 0) = 100 := by
      rw [max_eq_right]
      · norm_num
      · norm_num
    rw [hs]
    rw [if_pos (by norm_num : (100:ℚ) ≤ ((150:ℤ):ℚ))]
    simp only [Bool.false_eq_true, if_false]
    have hr : round0 (100:ℚ) = 100 := by norm_num [round0, rhe, Int.fract]
    rw [hr]
  have hlist : invRows "SKU_2000" "WH_001" 150 1 100 [0]
      (fun _ => ⟨-3/10, false, 500, 24⟩) =
      [⟨0, "SKU_2000", "WH_001", 100, 150, some 24⟩] := by
    simp only [invRows, hstep]
  have hmem : (⟨0, "SKU_2000", "WH_001", 100, 150, some 24⟩ : InvRow) ∈
      invRows "SKU_2000" "WH_001" 150 1 100 [0]
        (fun _ => ⟨-3/10, false, 500, 24⟩) := by
    rw [hlist]
    exact List.mem_singleton.mpr rfl
  refine ⟨hmem, rfl, ?_⟩
  exact C9_restock_eta "SKU_2000" "WH_001" 150 1 100 [0]
    (fun _ => ⟨-3/10, false, 500, 24⟩)
    ⟨0, "SKU_2000", "WH_001", 100, 150, some 24⟩ hmem rfl

end AicIot
